import Mathlib

/-!
Verification of the acquisition-and-normalization pipeline of the
android-recon repository: conversion utilities, line-oriented scan
parsers, fallback-chain orchestration, deduplication, the concurrent
prober target enumeration, result ordering, and the scan-result
envelope builder.  Each definition is a shallow embedding of the
corresponding Python function; machine integers are modelled as Int
or Nat, Python floats as Rat, and regular-expression match results on
a text line as pre-computed optional capture fields of a line record.
-/

/-- Python int() conversion applied to a rational: truncation toward
zero (floor for nonnegative arguments, ceiling for negative ones). -/
def pyInt (x : ℚ) : ℤ :=
  if 0 ≤ x then ⌊x⌋ else -⌊-x⌋

/-- Embedding of freq_to_channel from src/scanners/wifi_scanner.py
(lines 390-405).  Python floor division by the positive constant 5 is
exactly Int division in this toolchain (ediv).  The Python guard
"if not freq" is the test freq == 0 on integer input. -/
def freq_to_channel (freq : ℤ) : Option ℤ :=
  if freq = 0 then none
  else if 2412 ≤ freq ∧ freq ≤ 2484 then
    if freq = 2484 then some 14 else some ((freq - 2407) / 5)
  else if 5180 ≤ freq ∧ freq ≤ 5825 then some ((freq - 5000) / 5)
  else none

/-- Embedding of channel_to_freq from src/scanners/wifi_scanner.py
(lines 408-420). -/
def channel_to_freq (channel : ℤ) : Option ℤ :=
  if 1 ≤ channel ∧ channel ≤ 13 then some (2407 + channel * 5)
  else if channel = 14 then some 2484
  else if 36 ≤ channel ∧ channel ≤ 165 then some (5000 + channel * 5)
  else none

/-- Embedding of dbm_to_quality from src/scanners/wifi_scanner.py
(lines 423-435).  The Python guard "if not dbm" is the test dbm == 0
on numeric input; the final line applies int() to the interpolation
expression. -/
def dbm_to_quality (dbm : ℚ) : ℤ :=
  if dbm = 0 then 0
  else if -30 ≤ dbm then 100
  else if dbm ≤ -90 then 0
  else pyInt (100 - ((-30 - dbm) / 60 * 100))

/-- C1 fails as stated: the frequency 2477 belongs to the claimed set
(it lies in 2412..2484 and is channel-step aligned with 2412), yet the
round trip maps it to 2484, not back to 2477. -/
theorem c1_counterexample :
    (2412 ≤ (2477 : ℤ) ∧ (2477 : ℤ) ≤ 2484 ∧ ((2477 : ℤ) - 2412) % 5 = 0) ∧
    (freq_to_channel 2477).bind channel_to_freq = some 2484 ∧
    (2484 : ℤ) ≠ 2477 := by
  refine ⟨by decide, ?_, by decide⟩
  decide

/-- C1 amended: the round trip channel_to_freq (freq_to_channel f) = f
holds for every f in 2412..2472 step 5, for f = 2484, and for every f
in 5180..5825 step 5; the frequencies 2477 and 2482 of the originally
claimed 2.4 GHz sequence are excluded because freq_to_channel sends
2477 to channel 14 (whose frequency is 2484) and 2482 to the invalid
channel 15. -/
theorem c1_amended (f : ℤ)
    (h : (2412 ≤ f ∧ f ≤ 2472 ∧ (f - 2412) % 5 = 0) ∨ f = 2484 ∨
         (5180 ≤ f ∧ f ≤ 5825 ∧ (f - 5180) % 5 = 0)) :
    (freq_to_channel f).bind channel_to_freq = some f := by
  rcases h with ⟨h1, h2, h3⟩ | rfl | ⟨h1, h2, h3⟩
  · have hf0 : ¬ f = 0 := by omega
    have hband : 2412 ≤ f ∧ f ≤ 2484 := by omega
    have hne : ¬ f = 2484 := by omega
    rw [freq_to_channel, if_neg hf0, if_pos hband, if_neg hne,
      Option.some_bind, channel_to_freq,
      if_pos (show 1 ≤ (f - 2407) / 5 ∧ (f - 2407) / 5 ≤ 13 by omega)]
    congr 1
    omega
  · decide
  · have hf0 : ¬ f = 0 := by omega
    have hb1 : ¬ (2412 ≤ f ∧ f ≤ 2484) := by omega
    have hband : 5180 ≤ f ∧ f ≤ 5825 := by omega
    rw [freq_to_channel, if_neg hf0, if_neg hb1, if_pos hband,
      Option.some_bind, channel_to_freq,
      if_neg (show ¬ (1 ≤ (f - 5000) / 5 ∧ (f - 5000) / 5 ≤ 13) by omega),
      if_neg (show ¬ (f - 5000) / 5 = 14 by omega),
      if_pos (show 36 ≤ (f - 5000) / 5 ∧ (f - 5000) / 5 ≤ 165 by omega)]
    congr 1
    omega

/-- Witness for the amended C1 round trip at the concrete channel-52
frequency 5260. -/
theorem c1_witness :
    (freq_to_channel 5260).bind channel_to_freq = some 5260 :=
  c1_amended 5260 (Or.inr (Or.inr (by decide)))

lemma pyInt_of_nonneg (x : ℚ) (h : 0 ≤ x) : pyInt x = ⌊x⌋ := by
  rw [pyInt, if_pos h]

lemma dbm_to_quality_of_ge (q : ℚ) (h0 : q ≠ 0) (h : -30 ≤ q) :
    dbm_to_quality q = 100 := by
  rw [dbm_to_quality, if_neg h0, if_pos h]

lemma dbm_to_quality_of_le (q : ℚ) (h : q ≤ -90) : dbm_to_quality q = 0 := by
  rw [dbm_to_quality, if_neg (by intro hq; rw [hq] at h; norm_num at h),
    if_neg (by linarith), if_pos h]

lemma interp_pos (q : ℚ) (h : -90 < q) : 0 < 100 - ((-30 - q) / 60 * 100) := by
  have : (-30 - q) / 60 * 100 = (-30 - q) * (5 / 3) := by ring
  rw [this]
  linarith

lemma interp_lt_100 (q : ℚ) (h : q < -30) : 100 - ((-30 - q) / 60 * 100) < 100 := by
  have : (-30 - q) / 60 * 100 = (-30 - q) * (5 / 3) := by ring
  rw [this]
  linarith

lemma dbm_to_quality_of_mid (q : ℚ) (h1 : -90 < q) (h2 : q < -30) :
    dbm_to_quality q = ⌊100 - ((-30 - q) / 60 * 100)⌋ := by
  rw [dbm_to_quality, if_neg (by intro hq; rw [hq] at h2; norm_num at h2),
    if_neg (by linarith), if_neg (by linarith),
    pyInt_of_nonneg _ (le_of_lt (interp_pos q h1))]

lemma dbm_to_quality_nonneg (q : ℚ) : 0 ≤ dbm_to_quality q := by
  by_cases h0 : q = 0
  · rw [h0, dbm_to_quality, if_pos rfl]
  by_cases h30 : -30 ≤ q
  · rw [dbm_to_quality_of_ge q h0 h30]; norm_num
  by_cases h90 : q ≤ -90
  · rw [dbm_to_quality_of_le q h90]
  · rw [dbm_to_quality_of_mid q (by linarith) (by linarith)]
    exact Int.floor_nonneg.mpr (le_of_lt (interp_pos q (by linarith)))

lemma dbm_to_quality_le_100 (q : ℚ) : dbm_to_quality q ≤ 100 := by
  by_cases h0 : q = 0
  · rw [h0, dbm_to_quality, if_pos rfl]; norm_num
  by_cases h30 : -30 ≤ q
  · rw [dbm_to_quality_of_ge q h0 h30]
  by_cases h90 : q ≤ -90
  · rw [dbm_to_quality_of_le q h90]; norm_num
  · rw [dbm_to_quality_of_mid q (by linarith) (by linarith)]
    have := interp_lt_100 q (by linarith)
    have h := Int.floor_le_floor (le_of_lt this)
    simpa using h

/-- C2 fails as stated: the guard "if not dbm" of dbm_to_quality
treats the input 0 dBm as missing and returns 0, so the input 0,
although at least -30, does not yield 100, and monotonicity breaks
between -1 and 0. -/
theorem c2_counterexample :
    ((-1 : ℚ) ≤ 0) ∧ dbm_to_quality (-1) = 100 ∧ dbm_to_quality 0 = 0 ∧
    ¬ dbm_to_quality (-1) ≤ dbm_to_quality 0 ∧
    ((-30 : ℚ) ≤ 0 ∧ dbm_to_quality 0 ≠ 100) := by
  have h1 : dbm_to_quality (-1) = 100 := by
    rw [dbm_to_quality_of_ge (-1) (by norm_num) (by norm_num)]
  have h0 : dbm_to_quality 0 = 0 := by rw [dbm_to_quality, if_pos rfl]
  refine ⟨by norm_num, h1, h0, ?_, by norm_num, ?_⟩
  · rw [h1, h0]; norm_num
  · rw [h0]; norm_num

/-- C2 amended: excluding the input 0 dBm, which the missing-value
guard of dbm_to_quality maps to 0, the function is non-decreasing and
saturates: for nonzero a at most nonzero b the quality of a is at most
the quality of b, every nonzero input at least -30 dBm yields 100,
every input at most -90 dBm yields 0, and every input strictly between
-90 and -30 yields the integer floor of the linear interpolation
between 0 and 100. -/
theorem c2_amended :
    (∀ a b : ℚ, a ≠ 0 → b ≠ 0 → a ≤ b →
      dbm_to_quality a ≤ dbm_to_quality b) ∧
    (∀ q : ℚ, q ≠ 0 → -30 ≤ q → dbm_to_quality q = 100) ∧
    (∀ q : ℚ, q ≤ -90 → dbm_to_quality q = 0) ∧
    (∀ q : ℚ, -90 < q → q < -30 →
      dbm_to_quality q = ⌊100 - ((-30 - q) / 60 * 100)⌋) := by
  refine ⟨?_, dbm_to_quality_of_ge, dbm_to_quality_of_le, dbm_to_quality_of_mid⟩
  intro a b ha hb hab
  by_cases hb30 : -30 ≤ b
  · rw [dbm_to_quality_of_ge b hb hb30]
    exact dbm_to_quality_le_100 a
  by_cases hb90 : b ≤ -90
  · rw [dbm_to_quality_of_le b hb90, dbm_to_quality_of_le a (by linarith)]
  rw [dbm_to_quality_of_mid b (by linarith) (by linarith)]
  by_cases ha90 : a ≤ -90
  · rw [dbm_to_quality_of_le a ha90]
    exact Int.floor_nonneg.mpr (le_of_lt (interp_pos b (by linarith)))
  · rw [dbm_to_quality_of_mid a (by linarith) (by linarith)]
    apply Int.floor_le_floor
    have e1 : (100 : ℚ) - ((-30 - a) / 60 * 100) = 100 - (-30 - a) * (5 / 3) := by
      ring
    have e2 : (100 : ℚ) - ((-30 - b) / 60 * 100) = 100 - (-30 - b) * (5 / 3) := by
      ring
    rw [e1, e2]
    linarith

/-- Witness for the amended C2 monotonicity at the concrete inputs
-50 and -40 dBm. -/
theorem c2_witness : dbm_to_quality (-50) ≤ dbm_to_quality (-40) :=
  c2_amended.1 (-50) (-40) (by norm_num) (by norm_num) (by norm_num)

/-- Payload of a scan envelope: the Python create_scan_result accepts
either a list of items or a plain dictionary. -/
inductive ScanData (ι : Type) where
  | list (items : List ι)
  | dict (entries : List (String × String))
deriving DecidableEq

/-- Embedding of the canonical envelope returned by create_scan_result
in src/lib/json_utils.py; optional keys of the Python dictionary are
Option fields. -/
structure ScanResult (ι μ : Type) where
  scan_type : String
  timestamp : String
  version : String
  data : ScanData ι
  metadata : List (String × μ)
  count : Option Nat
  errors : Option (List String)
  warnings : Option (List String)
deriving DecidableEq

/-- Embedding of create_scan_result from src/lib/json_utils.py (lines
20-48); the generated timestamp is passed in as an argument, and the
count key is added exactly when the data argument is a list. -/
def create_scan_result {ι μ : Type} (scan_type timestamp : String)
    (data : ScanData ι) (metadata : Option (List (String × μ))) :
    ScanResult ι μ :=
  { scan_type := scan_type
    timestamp := timestamp
    version := "1.0.0"
    data := data
    metadata := metadata.getD []
    count := match data with
      | ScanData.list items => some items.length
      | ScanData.dict _ => none
    errors := none
    warnings := none }

/-- Insertion-ordered dictionary assignment: overwrite in place when
the key exists, append otherwise (Python dict semantics). -/
def dictSet {μ : Type} (m : List (String × μ)) (k : String) (v : μ) :
    List (String × μ) :=
  if m.any (fun p => p.1 = k) then
    m.map (fun p => if p.1 = k then (k, v) else p)
  else m ++ [(k, v)]

/-- Embedding of the mutable state of ScanResultBuilder from
src/lib/json_utils.py (lines 170-199). -/
structure Builder (ι μ : Type) where
  scan_type : String
  items : List ι
  metadata : List (String × μ)
  errors : List String
  warnings : List String
deriving DecidableEq

/-- ScanResultBuilder constructor. -/
def Builder.init {ι μ : Type} (scan_type : String) : Builder ι μ :=
  ⟨scan_type, [], [], [], []⟩

/-- ScanResultBuilder.add_item. -/
def Builder.add_item {ι μ : Type} (b : Builder ι μ) (item : ι) : Builder ι μ :=
  { b with items := b.items ++ [item] }

/-- ScanResultBuilder.add_metadata. -/
def Builder.add_metadata {ι μ : Type} (b : Builder ι μ) (k : String) (v : μ) :
    Builder ι μ :=
  { b with metadata := dictSet b.metadata k v }

/-- ScanResultBuilder.add_error. -/
def Builder.add_error {ι μ : Type} (b : Builder ι μ) (e : String) : Builder ι μ :=
  { b with errors := b.errors ++ [e] }

/-- ScanResultBuilder.add_warning. -/
def Builder.add_warning {ι μ : Type} (b : Builder ι μ) (w : String) : Builder ι μ :=
  { b with warnings := b.warnings ++ [w] }

/-- Embedding of ScanResultBuilder.build (lines 201-215): the errors
and warnings keys are attached only when the corresponding lists are
nonempty. -/
def Builder.build {ι μ : Type} (b : Builder ι μ) (timestamp : String) :
    ScanResult ι μ :=
  let result := create_scan_result b.scan_type timestamp
    (ScanData.list b.items) (some b.metadata)
  { result with
    errors := if b.errors = [] then none else some b.errors
    warnings := if b.warnings = [] then none else some b.warnings }

/-- C9: an envelope built by create_scan_result carries a count key
equal to the data length exactly when the data is list-typed, the
count key is absent for dictionary data, and every envelope built by
ScanResultBuilder.build has count equal to the length of its items
list. -/
theorem c9_count_invariant (ι μ : Type) :
    (∀ (st ts : String) (items : List ι) (md : Option (List (String × μ))),
      (create_scan_result st ts (ScanData.list items) md).count =
        some items.length) ∧
    (∀ (st ts : String) (entries : List (String × String))
      (md : Option (List (String × μ))),
      (create_scan_result (ι := ι) st ts (ScanData.dict entries) md).count =
        none) ∧
    (∀ (ts : String) (b : Builder ι μ),
      (b.build ts).count = some b.items.length) := by
  refine ⟨fun st ts items md => rfl, fun st ts entries md => rfl,
    fun ts b => rfl⟩

/-- Abstract operation applied to a ScanResultBuilder before build. -/
inductive BuildOp (ι μ : Type) where
  | addItem (item : ι)
  | addMetadata (key : String) (value : μ)
  | addError (msg : String)
  | addWarning (msg : String)

/-- Apply one builder operation. -/
def applyOp {ι μ : Type} (b : Builder ι μ) : BuildOp ι μ → Builder ι μ
  | BuildOp.addItem i => b.add_item i
  | BuildOp.addMetadata k v => b.add_metadata k v
  | BuildOp.addError e => b.add_error e
  | BuildOp.addWarning w => b.add_warning w

/-- Apply a sequence of builder operations in order. -/
def applyOps {ι μ : Type} (b : Builder ι μ) : List (BuildOp ι μ) → Builder ι μ
  | [] => b
  | op :: ops => applyOps (applyOp b op) ops

/-- The error messages of an operation sequence, in insertion order. -/
def errorsOf {ι μ : Type} (ops : List (BuildOp ι μ)) : List String :=
  ops.filterMap fun op => match op with
    | BuildOp.addError e => some e
    | _ => none

/-- The warning messages of an operation sequence, in insertion order. -/
def warningsOf {ι μ : Type} (ops : List (BuildOp ι μ)) : List String :=
  ops.filterMap fun op => match op with
    | BuildOp.addWarning w => some w
    | _ => none

lemma applyOps_errors {ι μ : Type} (ops : List (BuildOp ι μ)) :
    ∀ b : Builder ι μ, (applyOps b ops).errors = b.errors ++ errorsOf ops := by
  induction ops with
  | nil => intro b; simp [applyOps, errorsOf]
  | cons op ops ih =>
    intro b
    cases op <;>
      simp [applyOps, errorsOf, List.filterMap_cons, ih, applyOp,
        Builder.add_item, Builder.add_metadata, Builder.add_error,
        Builder.add_warning]

lemma applyOps_warnings {ι μ : Type} (ops : List (BuildOp ι μ)) :
    ∀ b : Builder ι μ, (applyOps b ops).warnings = b.warnings ++ warningsOf ops := by
  induction ops with
  | nil => intro b; simp [applyOps, warningsOf]
  | cons op ops ih =>
    intro b
    cases op <;>
      simp [applyOps, warningsOf, List.filterMap_cons, ih, applyOp,
        Builder.add_item, Builder.add_metadata, Builder.add_error,
        Builder.add_warning]

/-- C10: for a builder constructed by any sequence of add operations,
the built envelope carries an errors key exactly when at least one
error was added and a warnings key exactly when at least one warning
was added, and a present key holds exactly the added messages in
insertion order; empty lists are omitted rather than emitted. -/
theorem c10_errors_warnings_keys (ι μ : Type) (st ts : String)
    (ops : List (BuildOp ι μ)) :
    ((applyOps (Builder.init st) ops).build ts).errors =
      (if errorsOf ops = [] then none else some (errorsOf ops)) ∧
    ((applyOps (Builder.init st) ops).build ts).warnings =
      (if warningsOf ops = [] then none else some (warningsOf ops)) := by
  constructor
  · show (if (applyOps (Builder.init st) ops).errors = [] then none
      else some (applyOps (Builder.init st) ops).errors) = _
    rw [applyOps_errors ops (Builder.init st)]
    simp [Builder.init]
  · show (if (applyOps (Builder.init st) ops).warnings = [] then none
      else some (applyOps (Builder.init st) ops).warnings) = _
    rw [applyOps_warnings ops (Builder.init st)]
    simp [Builder.init]

/-- Canonical wireless network record as built by the scan parsers in
src/scanners/wifi_scanner.py. -/
structure WifiNet where
  bssid : String
  ssid : Option String
  frequency : Option ℤ
  channel : Option ℤ
  signal_dbm : Option ℚ
  signal_quality : Option ℤ
  security : String
  encryption : List String
deriving DecidableEq

/-- Current-connection record parsed by get_current_connection. -/
structure WifiConn where
  bssid : Option String
  ssid : Option String
  frequency : Option ℤ
  signal_dbm : Option ℤ
deriving DecidableEq

/-- Metadata values stored by run_wifi_scan. -/
inductive WifiMeta where
  | interfaces (names : List String)
  | connection (c : WifiConn)
deriving DecidableEq

/-- Environment of run_wifi_scan: the records each tool parser would
return for an interface, the Termux vendor fallback records, and the
current connection per interface.  Subprocess output is abstracted
into these per-stage results. -/
structure WifiEnv where
  iw : String → List WifiNet
  iwlist : String → List WifiNet
  termux : List WifiNet
  connection : String → Option WifiConn

/-- Fallback selection of run_wifi_scan (lines 514-522): per interface
try the iw parser, on zero records the iwlist parser, on zero records
again the Termux parser.  Returns the selected records together with
flags telling whether the iwlist stage and the Termux stage were
invoked. -/
def wifiScanStages (env : WifiEnv) (iface : String) :
    List WifiNet × Bool × Bool :=
  let n1 := env.iw iface
  if n1 = [] then
    let n2 := env.iwlist iface
    if n2 = [] then (env.termux, true, true)
    else (n2, true, false)
  else (n1, false, false)

/-- Sort key of run_wifi_scan line 532: the Python expression
x.get(signal_dbm) or -100 maps a missing or zero signal to -100. -/
def wifiSortKey (n : WifiNet) : ℚ :=
  match n.signal_dbm with
  | none => -100
  | some s => if s = 0 then -100 else s

/-- Stable descending sort by signal strength (run_wifi_scan line
532).  The Python stable sort is modelled by insertion sort, which is
stable and sorted by the same key, hence extensionally identical. -/
def sortWifiNetworks (l : List WifiNet) : List WifiNet :=
  List.insertionSort (fun a b => wifiSortKey b ≤ wifiSortKey a) l

/-- One step of the BSSID deduplication loop of run_wifi_scan (lines
524-529): the accumulator carries the kept records and the seen BSSID
set; a record is appended only when its bssid is truthy and unseen. -/
def wifiDedupStep (p : List WifiNet × List String) (net : WifiNet) :
    List WifiNet × List String :=
  if net.bssid ≠ "" ∧ net.bssid ∉ p.2 then
    (p.1 ++ [net], net.bssid :: p.2)
  else p

/-- The BSSID deduplication loop of run_wifi_scan (lines 524-529). -/
def wifiDedup (nets : List WifiNet) (acc : List WifiNet × List String) :
    List WifiNet × List String :=
  nets.foldl wifiDedupStep acc

/-- Per-interface body of run_wifi_scan (lines 503-529): record the
current connection as metadata, pick the fallback-chain result and
fold it into the deduplicated network list. -/
def runWifiIfaceStep (env : WifiEnv)
    (acc : Builder WifiNet WifiMeta × List WifiNet × List String)
    (iface : String) :
    Builder WifiNet WifiMeta × List WifiNet × List String :=
  let b := match env.connection iface with
    | some c =>
        acc.1.add_metadata ("current_connection_" ++ iface)
          (WifiMeta.connection c)
    | none => acc.1
  (b, wifiDedup (wifiScanStages env iface).1 acc.2)

/-- Embedding of run_wifi_scan from src/scanners/wifi_scanner.py
(lines 457-556), with verbose printing and file output dropped: on an
empty interface list a warning is recorded and the Termux fallback
records are added; otherwise each interface is scanned through the
fallback chain, results are deduplicated by BSSID, sorted by signal
strength descending and added to the builder. -/
def runWifiScan (env : WifiEnv) (interfaces : List String) (ts : String) :
    ScanResult WifiNet WifiMeta :=
  let b : Builder WifiNet WifiMeta := Builder.init "wifi"
  let b := b.add_metadata "interfaces" (WifiMeta.interfaces interfaces)
  if interfaces = [] then
    let b := b.add_warning "No wireless interfaces found"
    let b := env.termux.foldl Builder.add_item b
    b.build ts
  else
    let acc := interfaces.foldl (runWifiIfaceStep env) (b, [], [])
    let sorted := sortWifiNetworks acc.2.1
    let b := sorted.foldl Builder.add_item acc.1
    b.build ts

lemma foldl_add_item_warnings {ι μ : Type} (l : List ι) :
    ∀ b : Builder ι μ, (l.foldl Builder.add_item b).warnings = b.warnings := by
  induction l with
  | nil => intro b; rfl
  | cons x xs ih => intro b; rw [List.foldl_cons, ih]; rfl

lemma runWifiIfaceStep_warnings (env : WifiEnv)
    (acc : Builder WifiNet WifiMeta × List WifiNet × List String)
    (iface : String) :
    (runWifiIfaceStep env acc iface).1.warnings = acc.1.warnings := by
  rw [runWifiIfaceStep]
  cases env.connection iface <;> rfl

lemma foldl_ifaceStep_warnings (env : WifiEnv) (l : List String) :
    ∀ acc : Builder WifiNet WifiMeta × List WifiNet × List String,
      (l.foldl (runWifiIfaceStep env) acc).1.warnings = acc.1.warnings := by
  induction l with
  | nil => intro acc; rfl
  | cons x xs ih =>
    intro acc
    rw [List.foldl_cons, ih, runWifiIfaceStep_warnings]

lemma build_warnings_none {ι μ : Type} (b : Builder ι μ) (ts : String)
    (h : b.warnings = []) : (b.build ts).warnings = none := by
  show (if b.warnings = [] then none else some b.warnings) = none
  rw [h]
  rfl

/-- Wifi environment in which every stage returns zero records. -/
def emptyWifiEnv : WifiEnv :=
  ⟨fun _ => [], fun _ => [], [], fun _ => none⟩

/-- C3 fails as stated in its warning clause: with one interface whose
iw, iwlist and Termux stages all return zero records, every stage of
the chain is exhausted, yet the built envelope carries no warnings key
at all, so the warning list does not name the exhausted stages. -/
theorem c3_counterexample :
    wifiScanStages emptyWifiEnv "wlan0" = ([], true, true) ∧
    (runWifiScan emptyWifiEnv ["wlan0"] "t").warnings = none := by
  exact ⟨rfl, rfl⟩

/-- C3 amended: in the wireless scan, for each interface the iwlist
parser is invoked exactly when the iw parser produced zero records,
and the Termux vendor fallback is invoked exactly when both produced
zero records; however, the built envelope does not name exhausted
stages: whenever at least one wireless interface exists, run_wifi_scan
records no warning at all, so the warnings key is absent. -/
theorem c3_amended (env : WifiEnv) (iface : String)
    (interfaces : List String) (ts : String) (hne : interfaces ≠ []) :
    ((wifiScanStages env iface).2.1 = true ↔ env.iw iface = []) ∧
    ((wifiScanStages env iface).2.2 = true ↔
      env.iw iface = [] ∧ env.iwlist iface = []) ∧
    (runWifiScan env interfaces ts).warnings = none := by
  refine ⟨?_, ?_, ?_⟩
  · by_cases h1 : env.iw iface = [] <;>
      by_cases h2 : env.iwlist iface = [] <;>
      simp [wifiScanStages, h1, h2]
  · by_cases h1 : env.iw iface = [] <;>
      by_cases h2 : env.iwlist iface = [] <;>
      simp [wifiScanStages, h1, h2]
  · cases interfaces with
    | nil => exact absurd rfl hne
    | cons i rest =>
      rw [show runWifiScan env (i :: rest) ts =
        ((sortWifiNetworks ((i :: rest).foldl (runWifiIfaceStep env)
          (((Builder.init "wifi" : Builder WifiNet WifiMeta).add_metadata
            "interfaces" (WifiMeta.interfaces (i :: rest))), [], [])).2.1).foldl
          Builder.add_item ((i :: rest).foldl (runWifiIfaceStep env)
          (((Builder.init "wifi" : Builder WifiNet WifiMeta).add_metadata
            "interfaces" (WifiMeta.interfaces (i :: rest))), [], [])).1).build
          ts from rfl]
      apply build_warnings_none
      rw [foldl_add_item_warnings, foldl_ifaceStep_warnings]
      rfl

/-- Witness for the amended C3 at a concrete environment in which the
iw parser finds a record, so neither fallback stage runs. -/
theorem c3_witness :
    ((wifiScanStages
      ⟨fun _ => [⟨"AA:BB:CC:DD:EE:FF", none, none, none, none, none, "Open", []⟩],
        fun _ => [], [], fun _ => none⟩ "wlan0").2.1 = true ↔
      (⟨fun _ => [⟨"AA:BB:CC:DD:EE:FF", none, none, none, none, none, "Open", []⟩],
        fun _ => [], [], fun _ => none⟩ : WifiEnv).iw "wlan0" = []) ∧
    ((wifiScanStages
      ⟨fun _ => [⟨"AA:BB:CC:DD:EE:FF", none, none, none, none, none, "Open", []⟩],
        fun _ => [], [], fun _ => none⟩ "wlan0").2.2 = true ↔
      (⟨fun _ => [⟨"AA:BB:CC:DD:EE:FF", none, none, none, none, none, "Open", []⟩],
        fun _ => [], [], fun _ => none⟩ : WifiEnv).iw "wlan0" = [] ∧
      (⟨fun _ => [⟨"AA:BB:CC:DD:EE:FF", none, none, none, none, none, "Open", []⟩],
        fun _ => [], [], fun _ => none⟩ : WifiEnv).iwlist "wlan0" = []) ∧
    (runWifiScan
      ⟨fun _ => [⟨"AA:BB:CC:DD:EE:FF", none, none, none, none, none, "Open", []⟩],
        fun _ => [], [], fun _ => none⟩ ["wlan0"] "t").warnings = none :=
  c3_amended _ "wlan0" ["wlan0"] "t" (by simp)

/-- Python str.upper modelled character-wise (ASCII domain of MAC
addresses and device names); structurally recursive so that concrete
inputs evaluate. -/
def pyUpper (s : String) : String :=
  ⟨s.data.map Char.toUpper⟩

/-- Python str.strip modelled on the character list: drop whitespace
from both ends; structurally recursive so that concrete inputs
evaluate. -/
def pyStrip (s : String) : String :=
  ⟨((s.data.dropWhile Char.isWhitespace).reverse.dropWhile
    Char.isWhitespace).reverse⟩

/-- BLE device record as constructed by scan_ble_devices in
src/scanners/bluetooth_scanner.py (lines 264-271); the type, rssi,
device_class and device_type fields are constants there. -/
structure BleDevice where
  address : String
  name : String
  kind : String
  rssi : Option ℤ
  device_class : Option ℤ
  device_type : String
deriving DecidableEq

/-- Loop state of scan_ble_devices: the seen-address set and the
accumulated device list. -/
structure BleState where
  seen : List String
  devices : List BleDevice
deriving DecidableEq

/-- In-place conditional name upgrade of the first device with the
given address (lines 274-277): the name is replaced only when the new
name is not the placeholder and the stored name is the placeholder. -/
def bleUpdateName (addr devName : String) : List BleDevice → List BleDevice
  | [] => []
  | d :: ds =>
    if d.address = addr then
      (if devName ≠ "<unknown>" ∧ d.name = "<unknown>" then
        { d with name := devName } else d) :: ds
    else d :: bleUpdateName addr devName ds

/-- One line of the scan_ble_devices read loop (lines 253-279), taking
the two regex capture groups (address, raw name): duplicate sightings
with an unknown name are skipped, otherwise the address is recorded as
seen and the device is either merged by name upgrade into the existing
record or appended. -/
def bleStep (s : BleState) (line : String × String) : BleState :=
  let addr := pyUpper line.1
  let name := pyStrip line.2
  if addr ∈ s.seen ∧ (name = "(unknown)" ∨ name = "") then s
  else
    let seen := if addr ∈ s.seen then s.seen else addr :: s.seen
    let devName := if name ≠ "" ∧ name ≠ "(unknown)" then name else "<unknown>"
    if s.devices.any (fun d => d.address = addr) then
      ⟨seen, bleUpdateName addr devName s.devices⟩
    else
      ⟨seen, s.devices ++ [⟨addr, devName, "BLE", none, none, "BLE Device"⟩]⟩

/-- The parsed-line loop of scan_ble_devices over a list of captured
(address, raw name) pairs. -/
def scan_ble_parse (lines : List (String × String)) : List BleDevice :=
  (lines.foldl bleStep ⟨[], []⟩).devices

lemma bleUpdateName_filter_other (addr devName A : String) (h : addr ≠ A) :
    ∀ l : List BleDevice,
      (bleUpdateName addr devName l).filter (fun d => d.address = A) =
        l.filter (fun d => d.address = A) := by
  intro l
  induction l with
  | nil => rfl
  | cons d ds ih =>
    by_cases hd : d.address = addr
    · rw [bleUpdateName, if_pos hd]
      have hA : ¬ d.address = A := by rw [hd]; exact h
      by_cases hup : devName ≠ "<unknown>" ∧ d.name = "<unknown>"
      · rw [if_pos hup]
        simp [List.filter_cons, hA]
      · rw [if_neg hup]
    · rw [bleUpdateName, if_neg hd]
      simp only [List.filter_cons]
      by_cases hA : d.address = A
      · rw [decide_eq_true hA, ih]
      · rw [decide_eq_false hA, ih]

set_option linter.unnecessarySimpa false in
lemma bleStep_other (s : BleState) (p : String × String) (A : String)
    (h : pyUpper p.1 ≠ A) :
    ((bleStep s p).devices.filter (fun d => d.address = A) =
      s.devices.filter (fun d => d.address = A)) ∧
    (A ∈ (bleStep s p).seen ↔ A ∈ s.seen) := by
  rw [bleStep]
  by_cases hskip : pyUpper p.1 ∈ s.seen ∧ (pyStrip p.2 = "(unknown)" ∨ pyStrip p.2 = "")
  · rw [if_pos hskip]
    exact ⟨rfl, Iff.rfl⟩
  · rw [if_neg hskip]
    by_cases hex : s.devices.any (fun d => d.address = pyUpper p.1)
    · simp only [hex, if_pos]
      constructor
      · exact bleUpdateName_filter_other _ _ _ h _
      · by_cases hs : pyUpper p.1 ∈ s.seen
        · rw [if_pos hs]
        · rw [if_neg hs]
          simp only [List.mem_cons]
          constructor
          · rintro (h1 | h1)
            · exact absurd h1.symm h
            · exact h1
          · exact Or.inr
    · simp only [hex]
      rw [if_neg (by simpa using hex)]
      constructor
      · rw [List.filter_append]
        have hnil : (([⟨pyUpper p.1, if pyStrip p.2 ≠ "" ∧ pyStrip p.2 ≠ "(unknown)" then pyStrip p.2 else "<unknown>", "BLE", none, none, "BLE Device"⟩] : List BleDevice).filter (fun d => d.address = A)) = [] := by
          simp [h]
        rw [hnil, List.append_nil]
      · by_cases hs : pyUpper p.1 ∈ s.seen
        · rw [if_pos hs]
        · rw [if_neg hs]
          simp only [List.mem_cons]
          constructor
          · rintro (h1 | h1)
            · exact absurd h1.symm h
            · exact h1
          · exact Or.inr

lemma bleFold_other (A : String) (l : List (String × String)) :
    ∀ s : BleState, (∀ p ∈ l, pyUpper p.1 ≠ A) →
      ((l.foldl bleStep s).devices.filter (fun d => d.address = A) =
        s.devices.filter (fun d => d.address = A)) ∧
      (A ∈ (l.foldl bleStep s).seen ↔ A ∈ s.seen) := by
  induction l with
  | nil => intro s _; exact ⟨rfl, Iff.rfl⟩
  | cons p ps ih =>
    intro s hl
    have hp : pyUpper p.1 ≠ A := hl p (List.mem_cons_self p ps)
    have hps : ∀ q ∈ ps, pyUpper q.1 ≠ A :=
      fun q hq => hl q (List.mem_cons_of_mem p hq)
    rw [List.foldl_cons]
    obtain ⟨e1, e2⟩ := ih (bleStep s p) hps
    obtain ⟨f1, f2⟩ := bleStep_other s p A hp
    exact ⟨e1.trans f1, e2.trans f2⟩

lemma bleUpdateName_filter_self (addr devName : String) :
    ∀ (l : List BleDevice) (d : BleDevice),
      l.filter (fun x => x.address = addr) = [d] →
      (bleUpdateName addr devName l).filter (fun x => x.address = addr) =
        [if devName ≠ "<unknown>" ∧ d.name = "<unknown>" then
          { d with name := devName } else d] := by
  intro l
  induction l with
  | nil => intro d hd; simp at hd
  | cons x xs ih =>
    intro d hd
    by_cases hx : x.address = addr
    · rw [List.filter_cons, decide_eq_true hx] at hd
      simp only [if_true] at hd
      have hxd : x = d := (List.cons_eq_cons.mp hd).1
      have hrest : xs.filter (fun y => y.address = addr) = [] :=
        (List.cons_eq_cons.mp hd).2
      subst hxd
      rw [bleUpdateName, if_pos hx]
      by_cases hup : devName ≠ "<unknown>" ∧ x.name = "<unknown>"
      · rw [if_pos hup]
        simp [List.filter_cons, hx, hrest]
      · rw [if_neg hup]
        simp [List.filter_cons, hx, hrest]
    · rw [List.filter_cons, decide_eq_false hx] at hd
      simp only [Bool.false_eq_true, if_false] at hd
      rw [bleUpdateName, if_neg hx, List.filter_cons, decide_eq_false hx]
      simp only [Bool.false_eq_true, if_false]
      exact ih d hd

/-- Wireless record with a placeholder name for the C4 input. -/
def wifiNetUnknown : WifiNet :=
  ⟨"AA:BB:CC:DD:EE:FF", some "<unknown>", none, none, none, none, "Open", []⟩

/-- Wireless record with a resolved name for the C4 input. -/
def wifiNetNamed : WifiNet :=
  ⟨"AA:BB:CC:DD:EE:FF", some "Pixel-7", none, none, none, none, "Open", []⟩

/-- C4 fails as stated for the wifi deduplication site it cites: the
BSSID loop of run_wifi_scan keeps the entire first-seen record and
drops any later record with the same address, so the placeholder name
of the first record is never upgraded to the later non-placeholder
value. -/
theorem c4_counterexample :
    wifiNetUnknown.bssid = wifiNetNamed.bssid ∧
    wifiNetUnknown.ssid = some "<unknown>" ∧
    wifiNetNamed.ssid = some "Pixel-7" ∧
    (wifiDedup [wifiNetUnknown, wifiNetNamed] ([], [])).1 = [wifiNetUnknown] ∧
    (wifiDedup [wifiNetUnknown, wifiNetNamed] ([], [])).1 ≠ [wifiNetNamed] := by
  refine ⟨rfl, rfl, rfl, rfl, ?_⟩
  decide

/-- C4 amended: the name-upgrade policy holds for the BLE deduplicator
scan_ble_devices, not for the wifi BSSID loop: for every ordered line
sequence in which an address first appears with a placeholder name and
later with a non-placeholder name, and no other line carries that
address, the output contains exactly one record for that address, its
name is the later non-placeholder value, and all other fields are the
first-seen constants. -/
theorem c4_amended (pre mid post : List (String × String)) (A n1 n2 : String)
    (h1 : pyStrip n1 = "" ∨ pyStrip n1 = "(unknown)" ∨ pyStrip n1 = "<unknown>")
    (h2a : pyStrip n2 ≠ "") (h2b : pyStrip n2 ≠ "(unknown)") (h2c : pyStrip n2 ≠ "<unknown>")
    (h3 : ∀ p ∈ pre ++ mid ++ post, pyUpper p.1 ≠ pyUpper A) :
    (scan_ble_parse (pre ++ (A, n1) :: (mid ++ (A, n2) :: post))).filter
        (fun d => d.address = pyUpper A) =
      [⟨pyUpper A, pyStrip n2, "BLE", none, none, "BLE Device"⟩] := by
  have hpre : ∀ p ∈ pre, pyUpper p.1 ≠ pyUpper A := by
    intro p hp
    exact h3 p (by simp [hp])
  have hmid : ∀ p ∈ mid, pyUpper p.1 ≠ pyUpper A := by
    intro p hp
    exact h3 p (by simp [hp])
  have hpost : ∀ p ∈ post, pyUpper p.1 ≠ pyUpper A := by
    intro p hp
    exact h3 p (by simp [hp])
  rw [scan_ble_parse, List.foldl_append, List.foldl_cons, List.foldl_append,
    List.foldl_cons]
  set s1 := pre.foldl bleStep ⟨[], []⟩ with hs1
  obtain ⟨e1, e2⟩ := bleFold_other (pyUpper A) pre ⟨[], []⟩ hpre
  rw [← hs1] at e1 e2
  have hseen1 : pyUpper A ∉ s1.seen := by
    rw [e2]; simp
  have hfil1 : s1.devices.filter (fun d => d.address = pyUpper A) = [] := by
    rw [e1]; rfl
  have hstep1 : bleStep s1 (A, n1) =
      ⟨pyUpper A :: s1.seen,
        s1.devices ++ [⟨pyUpper A, "<unknown>", "BLE", none, none, "BLE Device"⟩]⟩ := by
    rw [bleStep]
    have hskip : ¬ (pyUpper (A, n1).1 ∈ s1.seen ∧
        (pyStrip (A, n1).2 = "(unknown)" ∨ pyStrip (A, n1).2 = "")) := by
      intro hc
      exact hseen1 hc.1
    rw [if_neg hskip]
    have hany : ¬ (s1.devices.any (fun d => d.address = pyUpper (A, n1).1)) = true := by
      rw [List.any_eq_true]
      rintro ⟨x, hx, hpx⟩
      have hnil := List.filter_eq_nil_iff.mp hfil1 x hx
      exact hnil hpx
    rw [if_neg hany, if_neg (by exact fun hc => hseen1 hc)]
    have hname : (if pyStrip (A, n1).2 ≠ "" ∧ pyStrip (A, n1).2 ≠ "(unknown)"
        then pyStrip (A, n1).2 else "<unknown>") = "<unknown>" := by
      rcases h1 with h | h | h <;> simp only [h] <;> simp
    rw [hname]
  rw [hstep1]
  set s3 := mid.foldl bleStep
    (⟨pyUpper A :: s1.seen,
      s1.devices ++ [⟨pyUpper A, "<unknown>", "BLE", none, none, "BLE Device"⟩]⟩ : BleState)
    with hs3
  obtain ⟨f1, f2⟩ := bleFold_other (pyUpper A) mid
    ⟨pyUpper A :: s1.seen,
      s1.devices ++ [⟨pyUpper A, "<unknown>", "BLE", none, none, "BLE Device"⟩]⟩ hmid
  rw [← hs3] at f1 f2
  have hfil3 : s3.devices.filter (fun d => d.address = pyUpper A) =
      [⟨pyUpper A, "<unknown>", "BLE", none, none, "BLE Device"⟩] := by
    rw [f1, List.filter_append, hfil1]
    simp
  have hstep2 : bleStep s3 (A, n2) =
      ⟨(if pyUpper (A, n2).1 ∈ s3.seen then s3.seen else pyUpper (A, n2).1 :: s3.seen),
        bleUpdateName (pyUpper A) (pyStrip n2) s3.devices⟩ := by
    rw [bleStep]
    have hskip : ¬ (pyUpper (A, n2).1 ∈ s3.seen ∧
        (pyStrip (A, n2).2 = "(unknown)" ∨ pyStrip (A, n2).2 = "")) := by
      rintro ⟨_, hc | hc⟩
      · exact h2b hc
      · exact h2a hc
    rw [if_neg hskip]
    have hany : (s3.devices.any (fun d => d.address = pyUpper (A, n2).1)) = true := by
      rw [List.any_eq_true]
      refine ⟨⟨pyUpper A, "<unknown>", "BLE", none, none, "BLE Device"⟩, ?_, by simp⟩
      have : (⟨pyUpper A, "<unknown>", "BLE", none, none, "BLE Device"⟩ : BleDevice) ∈
          s3.devices.filter (fun d => d.address = pyUpper A) := by
        rw [hfil3]; simp
      exact (List.mem_filter.mp this).1
    rw [if_pos hany]
    have hname : (if pyStrip (A, n2).2 ≠ "" ∧ pyStrip (A, n2).2 ≠ "(unknown)"
        then pyStrip (A, n2).2 else "<unknown>") = pyStrip n2 := by
      rw [if_pos ⟨h2a, h2b⟩]
    rw [hname]
  rw [hstep2]
  obtain ⟨g1, _⟩ := bleFold_other (pyUpper A) post
    ⟨(if pyUpper (A, n2).1 ∈ s3.seen then s3.seen else pyUpper (A, n2).1 :: s3.seen),
      bleUpdateName (pyUpper A) (pyStrip n2) s3.devices⟩ hpost
  rw [g1]
  have := bleUpdateName_filter_self (pyUpper A) (pyStrip n2) s3.devices
    ⟨pyUpper A, "<unknown>", "BLE", none, none, "BLE Device"⟩ hfil3
  rw [this]
  rw [if_pos ⟨h2c, rfl⟩]

/-- Witness for the amended C4 name upgrade on a concrete two-line BLE
scan. -/
theorem c4_witness :
    (scan_ble_parse [("aa:bb:cc:dd:ee:ff", ""), ("aa:bb:cc:dd:ee:ff", "Pixel-7")]).filter
        (fun d => d.address = pyUpper "aa:bb:cc:dd:ee:ff") =
      [⟨pyUpper "aa:bb:cc:dd:ee:ff", pyStrip "Pixel-7", "BLE", none, none, "BLE Device"⟩] :=
  c4_amended [] [] [] "aa:bb:cc:dd:ee:ff" "" "Pixel-7"
    (Or.inl (by decide)) (by decide) (by decide) (by decide)
    (by intro p hp; simp at hp)

/-- One input line of the iw scan-dump parser (lines 171-228 of
src/scanners/wifi_scanner.py), abstracted to the results of the regex
matches and substring tests the code performs on the stripped line:
the captured BSS address, the captured SSID text, the captured
frequency, the captured signal value, and the WPA:/RSN:/Privacy
substring flags. -/
structure IwLine where
  bss : Option String
  ssid : Option String
  freq : Option ℤ
  signal : Option ℚ
  hasWPA : Bool
  hasRSN : Bool
  hasPrivacy : Bool
deriving DecidableEq

/-- Fresh accumulator record created at a BSS boundary (lines
179-188). -/
def newIwNet (addr : String) : WifiNet :=
  ⟨pyUpper addr, none, none, none, none, none, "Open", []⟩

/-- In-record transition of the iw parser (lines 194-228), applied to
a line that is not a BSS boundary: the SSID, frequency and signal
patterns are tried in order and stop the line processing on match
(overwriting the field); otherwise the WPA:/RSN: block and then the
Privacy block run in sequence. -/
def iwUpdate (cur : WifiNet) (l : IwLine) : WifiNet :=
  match l.ssid with
  | some raw =>
    let s := if pyStrip raw ≠ "" then pyStrip raw else "<hidden>"
    { cur with ssid := some s }
  | none =>
  match l.freq with
  | some f => { cur with frequency := some f, channel := freq_to_channel f }
  | none =>
  match l.signal with
  | some sg =>
    { cur with signal_dbm := some sg, signal_quality := some (dbm_to_quality sg) }
  | none =>
    let c1 :=
      if l.hasWPA ∨ l.hasRSN then
        let e1 :=
          if l.hasWPA ∧ "WPA" ∉ cur.encryption then cur.encryption ++ ["WPA"]
          else cur.encryption
        let e2 := if l.hasRSN then e1 ++ ["WPA2"] else e1
        { cur with encryption := e2, security := "Secured" }
      else cur
    if l.hasPrivacy ∧ c1.encryption = [] then
      { c1 with encryption := c1.encryption ++ ["WEP"], security := "Secured" }
    else c1

/-- One step of the iw parser loop (lines 171-192): a BSS boundary
flushes the open record and opens a new one; any other line updates
the open record, if any. -/
def iwStep (s : Option WifiNet × List WifiNet) (l : IwLine) :
    Option WifiNet × List WifiNet :=
  match l.bss with
  | some addr =>
    (some (newIwNet addr),
      match s.1 with
      | some n => s.2 ++ [n]
      | none => s.2)
  | none =>
    match s.1 with
    | none => s
    | some cur => (some (iwUpdate cur l), s.2)

/-- The line loop of scan_wifi_networks_iw (lines 169-232) including
the final flush of the open record. -/
def scan_wifi_networks_iw_parse (lines : List IwLine) : List WifiNet :=
  let s := lines.foldl iwStep (none, [])
  match s.1 with
  | some n => s.2 ++ [n]
  | none => s.2

/-- An iw line that is only a BSS boundary. -/
def bssLine (addr : String) : IwLine :=
  ⟨some addr, none, none, none, false, false, false⟩

/-- An iw line that only matches the SSID pattern. -/
def ssidLine (s : String) : IwLine :=
  ⟨none, some s, none, none, false, false, false⟩

/-- An iw line that only carries the RSN: marker. -/
def rsnLine : IwLine :=
  ⟨none, none, none, none, false, true, false⟩

/-- One input line of the iwlist scan parser (lines 263-338),
abstracted to the results of its regex matches and substring tests:
captured cell address, captured ESSID text, captured channel number,
captured GHz frequency numeral, captured signal level, captured
quality ratio, captured encryption-key state, and the WPA Version
1 / WPA2 / WEP information-element substring flags. -/
structure IwlistLine where
  cell : Option String
  essid : Option String
  channelM : Option ℤ
  freqGhz : Option ℚ
  signalM : Option ℤ
  quality : Option (ℤ × ℤ)
  encKey : Option Bool
  hasWPA1 : Bool
  hasWPA2 : Bool
  hasWEP : Bool
deriving DecidableEq

/-- Encryption-key and information-element part of the iwlist
in-record transition (lines 326-338): an encryption-key match stops
the line; otherwise the IE substring checks append one encryption kind
without touching the security field. -/
def iwlistEnc (cur : WifiNet) (l : IwlistLine) : WifiNet :=
  match l.encKey with
  | some enabled => if enabled then { cur with security := "Secured" } else cur
  | none =>
    if l.hasWPA1 then { cur with encryption := cur.encryption ++ ["WPA"] }
    else if l.hasWPA2 then { cur with encryption := cur.encryption ++ ["WPA2"] }
    else if l.hasWEP then { cur with encryption := cur.encryption ++ ["WEP"] }
    else cur

/-- Quality part of the iwlist in-record transition (lines 319-323): a
quality ratio is stored only while the signal quality is still falsy,
and otherwise the line falls through to the encryption checks.  Python
evaluates int(m / n * 100); the division is rational here. -/
def iwlistQual (cur : WifiNet) (l : IwlistLine) : WifiNet :=
  match l.quality with
  | some mn =>
    if cur.signal_quality = none ∨ cur.signal_quality = some 0 then
      { cur with signal_quality := some (pyInt ((mn.1 : ℚ) / (mn.2 : ℚ) * 100)) }
    else iwlistEnc cur l
  | none => iwlistEnc cur l

/-- In-record transition of the iwlist parser (lines 286-338): the
ESSID, channel, frequency and signal patterns are tried in order and
stop the line on match; the channel derived from a frequency line is
set only while the channel is still falsy. -/
def iwlistUpdate (cur : WifiNet) (l : IwlistLine) : WifiNet :=
  match l.essid with
  | some raw =>
    { cur with ssid := some (if raw ≠ "" then raw else "<hidden>") }
  | none =>
  match l.channelM with
  | some c => { cur with channel := some c, frequency := channel_to_freq c }
  | none =>
  match l.freqGhz with
  | some g =>
    let f := pyInt (g * 1000)
    if cur.channel = none ∨ cur.channel = some 0 then
      { cur with frequency := some f, channel := freq_to_channel f }
    else { cur with frequency := some f }
  | none =>
  match l.signalM with
  | some sg =>
    { cur with signal_dbm := some (sg : ℚ), signal_quality := some (dbm_to_quality (sg : ℚ)) }
  | none => iwlistQual cur l

/-- One step of the iwlist parser loop (lines 263-281): a cell
boundary flushes the open record and opens a new one; any other line
updates the open record, if any. -/
def iwlistStep (s : Option WifiNet × List WifiNet) (l : IwlistLine) :
    Option WifiNet × List WifiNet :=
  match l.cell with
  | some addr =>
    (some (newIwNet addr),
      match s.1 with
      | some n => s.2 ++ [n]
      | none => s.2)
  | none =>
    match s.1 with
    | none => s
    | some cur => (some (iwlistUpdate cur l), s.2)

/-- The line loop of scan_wifi_networks_iwlist (lines 260-342)
including the final flush of the open record. -/
def scan_wifi_networks_iwlist_parse (lines : List IwlistLine) : List WifiNet :=
  let s := lines.foldl iwlistStep (none, [])
  match s.1 with
  | some n => s.2 ++ [n]
  | none => s.2

/-- C5 fails as stated: in the iw parser a second SSID line inside the
same BSS block overwrites the already-set SSID, so the field does not
stay at its first match. -/
theorem c5_counterexample :
    scan_wifi_networks_iw_parse
        [bssLine "aa:bb:cc:dd:ee:ff", ssidLine "foo", ssidLine "bar"] =
      [⟨pyUpper "aa:bb:cc:dd:ee:ff", some "bar", none, none, none, none,
        "Open", []⟩] ∧
    (some "bar" : Option String) ≠ some "foo" := by
  exact ⟨rfl, by decide⟩

/-- C5 amended: in both line parsers a later line matching an
already-set scalar field pattern overwrites the field (last-match
wins) rather than being ignored; the only first-set-wins scalars are
in the iwlist parser, where a frequency line derives the channel only
while the channel is still falsy and a quality line stores the ratio
only while the signal quality is still falsy (and otherwise falls
through to the encryption checks, leaving the fields unchanged when
no marker is present). -/
theorem c5_amended :
    (∀ (cur : WifiNet) (out : List WifiNet) (l : IwLine) (raw : String),
      l.bss = none → l.ssid = some raw →
      (iwStep (some cur, out) l).1 = some { cur with ssid := some (if pyStrip raw ≠ "" then pyStrip raw else "<hidden>") }) ∧
    (∀ (cur : WifiNet) (out : List WifiNet) (l : IwLine) (f : ℤ),
      l.bss = none → l.ssid = none → l.freq = some f →
      (iwStep (some cur, out) l).1 = some { cur with
        frequency := some f, channel := freq_to_channel f }) ∧
    (∀ (cur : WifiNet) (out : List WifiNet) (l : IwLine) (sg : ℚ),
      l.bss = none → l.ssid = none → l.freq = none → l.signal = some sg →
      (iwStep (some cur, out) l).1 = some { cur with
        signal_dbm := some sg,
        signal_quality := some (dbm_to_quality sg) }) ∧
    (∀ (cur : WifiNet) (out : List WifiNet) (l : IwlistLine) (raw : String),
      l.cell = none → l.essid = some raw →
      (iwlistStep (some cur, out) l).1 = some { cur with
        ssid := some (if raw ≠ "" then raw else "<hidden>") }) ∧
    (∀ (cur : WifiNet) (out : List WifiNet) (l : IwlistLine) (c : ℤ),
      l.cell = none → l.essid = none → l.channelM = some c →
      (iwlistStep (some cur, out) l).1 = some { cur with
        channel := some c, frequency := channel_to_freq c }) ∧
    (∀ (cur : WifiNet) (out : List WifiNet) (l : IwlistLine) (g : ℚ),
      l.cell = none → l.essid = none → l.channelM = none →
      l.freqGhz = some g →
      ¬ (cur.channel = none ∨ cur.channel = some 0) →
      (iwlistStep (some cur, out) l).1 = some { cur with
        frequency := some (pyInt (g * 1000)) }) ∧
    (∀ (cur : WifiNet) (out : List WifiNet) (l : IwlistLine) (g : ℚ),
      l.cell = none → l.essid = none → l.channelM = none →
      l.freqGhz = some g →
      (cur.channel = none ∨ cur.channel = some 0) →
      (iwlistStep (some cur, out) l).1 = some { cur with
        frequency := some (pyInt (g * 1000)),
        channel := freq_to_channel (pyInt (g * 1000)) }) ∧
    (∀ (cur : WifiNet) (out : List WifiNet) (l : IwlistLine) (sg : ℤ),
      l.cell = none → l.essid = none → l.channelM = none →
      l.freqGhz = none → l.signalM = some sg →
      (iwlistStep (some cur, out) l).1 = some { cur with
        signal_dbm := some (sg : ℚ),
        signal_quality := some (dbm_to_quality (sg : ℚ)) }) ∧
    (∀ (cur : WifiNet) (out : List WifiNet) (l : IwlistLine) (mn : ℤ × ℤ),
      l.cell = none → l.essid = none → l.channelM = none →
      l.freqGhz = none → l.signalM = none → l.quality = some mn →
      (cur.signal_quality = none ∨ cur.signal_quality = some 0) →
      (iwlistStep (some cur, out) l).1 = some { cur with
        signal_quality := some (pyInt ((mn.1 : ℚ) / (mn.2 : ℚ) * 100)) }) ∧
    (∀ (cur : WifiNet) (out : List WifiNet) (l : IwlistLine) (mn : ℤ × ℤ),
      l.cell = none → l.essid = none → l.channelM = none →
      l.freqGhz = none → l.signalM = none → l.quality = some mn →
      l.encKey = none → l.hasWPA1 = false → l.hasWPA2 = false →
      l.hasWEP = false →
      ¬ (cur.signal_quality = none ∨ cur.signal_quality = some 0) →
      (iwlistStep (some cur, out) l).1 = some cur) := by
  refine ⟨?_, ?_, ?_, ?_, ?_, ?_, ?_, ?_, ?_, ?_⟩
  · rintro cur out ⟨bss, ssid, freq, signal, w, r, p⟩ raw h1 h2
    obtain rfl : bss = none := h1
    obtain rfl : ssid = some raw := h2
    rfl
  · rintro cur out ⟨bss, ssid, freq, signal, w, r, p⟩ f h1 h2 h3
    obtain rfl : bss = none := h1
    obtain rfl : ssid = none := h2
    obtain rfl : freq = some f := h3
    rfl
  · rintro cur out ⟨bss, ssid, freq, signal, w, r, p⟩ sg h1 h2 h3 h4
    obtain rfl : bss = none := h1
    obtain rfl : ssid = none := h2
    obtain rfl : freq = none := h3
    obtain rfl : signal = some sg := h4
    rfl
  · rintro cur out ⟨cell, essid, ch, fg, sm, qu, ek, w1, w2, we⟩ raw h1 h2
    obtain rfl : cell = none := h1
    obtain rfl : essid = some raw := h2
    rfl
  · rintro cur out ⟨cell, essid, ch, fg, sm, qu, ek, w1, w2, we⟩ c h1 h2 h3
    obtain rfl : cell = none := h1
    obtain rfl : essid = none := h2
    obtain rfl : ch = some c := h3
    rfl
  · rintro cur out ⟨cell, essid, ch, fg, sm, qu, ek, w1, w2, we⟩ g h1 h2 h3 h4 h5
    obtain rfl : cell = none := h1
    obtain rfl : essid = none := h2
    obtain rfl : ch = none := h3
    obtain rfl : fg = some g := h4
    simp only [iwlistStep, iwlistUpdate]
    rw [if_neg h5]
  · rintro cur out ⟨cell, essid, ch, fg, sm, qu, ek, w1, w2, we⟩ g h1 h2 h3 h4 h5
    obtain rfl : cell = none := h1
    obtain rfl : essid = none := h2
    obtain rfl : ch = none := h3
    obtain rfl : fg = some g := h4
    simp only [iwlistStep, iwlistUpdate]
    rw [if_pos h5]
  · rintro cur out ⟨cell, essid, ch, fg, sm, qu, ek, w1, w2, we⟩ sg h1 h2 h3 h4 h5
    obtain rfl : cell = none := h1
    obtain rfl : essid = none := h2
    obtain rfl : ch = none := h3
    obtain rfl : fg = none := h4
    obtain rfl : sm = some sg := h5
    rfl
  · rintro cur out ⟨cell, essid, ch, fg, sm, qu, ek, w1, w2, we⟩ mn h1 h2 h3 h4 h5 h6 h7
    obtain rfl : cell = none := h1
    obtain rfl : essid = none := h2
    obtain rfl : ch = none := h3
    obtain rfl : fg = none := h4
    obtain rfl : sm = none := h5
    obtain rfl : qu = some mn := h6
    simp only [iwlistStep, iwlistUpdate, iwlistQual]
    rw [if_pos h7]
  · rintro cur out ⟨cell, essid, ch, fg, sm, qu, ek, w1, w2, we⟩ mn h1 h2 h3 h4 h5 h6 h7 h8 h9 h10 h11
    obtain rfl : cell = none := h1
    obtain rfl : essid = none := h2
    obtain rfl : ch = none := h3
    obtain rfl : fg = none := h4
    obtain rfl : sm = none := h5
    obtain rfl : qu = some mn := h6
    obtain rfl : ek = none := h7
    obtain rfl : w1 = false := h8
    obtain rfl : w2 = false := h9
    obtain rfl : we = false := h10
    simp only [iwlistStep, iwlistUpdate, iwlistQual, iwlistEnc]
    rw [if_neg h11]
    rfl

/-- Witness for the amended C5 overwrite behaviour at a concrete open
record and SSID line. -/
theorem c5_witness :
    (iwStep (some (newIwNet "aa:bb:cc:dd:ee:ff"), []) (ssidLine "Net")).1 =
      some { newIwNet "aa:bb:cc:dd:ee:ff" with ssid := some (if pyStrip "Net" ≠ "" then pyStrip "Net" else "<hidden>") } :=
  c5_amended.1 (newIwNet "aa:bb:cc:dd:ee:ff") [] (ssidLine "Net") "Net" rfl rfl

/-- A line of an iw record block that reaches the security checks and
carries a WPA:/RSN:/Privacy marker: it is not consumed by the SSID,
frequency or signal patterns and has at least one marker flag. -/
def iwSecLine (l : IwLine) : Prop :=
  l.ssid = none ∧ l.freq = none ∧ l.signal = none ∧
  (l.hasWPA = true ∨ l.hasRSN = true ∨ l.hasPrivacy = true)

lemma iwUpdate_nonsec (cur : WifiNet) (l : IwLine) (h : ¬ iwSecLine l) :
    (iwUpdate cur l).security = cur.security ∧
    (iwUpdate cur l).encryption = cur.encryption := by
  rcases l with ⟨bss, ssid, freq, signal, w, r, p⟩
  cases ssid with
  | some raw => exact ⟨rfl, rfl⟩
  | none =>
  cases freq with
  | some f => exact ⟨rfl, rfl⟩
  | none =>
  cases signal with
  | some sg => exact ⟨rfl, rfl⟩
  | none =>
    simp only [iwSecLine, not_and, not_or, Bool.not_eq_true] at h
    obtain ⟨hw, hr, hp⟩ := h trivial trivial trivial
    subst hw
    subst hr
    subst hp
    exact ⟨rfl, rfl⟩

lemma iwUpdate_sticky (cur : WifiNet) (l : IwLine)
    (h : cur.security = "Secured") : (iwUpdate cur l).security = "Secured" := by
  rcases l with ⟨bss, ssid, freq, signal, w, r, p⟩
  cases ssid with
  | some raw => exact h
  | none =>
  cases freq with
  | some f => exact h
  | none =>
  cases signal with
  | some sg => exact h
  | none =>
    simp only [iwUpdate]
    split_ifs <;> first | rfl | exact h

lemma iwUpdate_inv (cur : WifiNet) (l : IwLine)
    (h : cur.encryption ≠ [] → cur.security = "Secured") :
    (iwUpdate cur l).encryption ≠ [] → (iwUpdate cur l).security = "Secured" := by
  rcases l with ⟨bss, ssid, freq, signal, w, r, p⟩
  cases ssid with
  | some raw => exact h
  | none =>
  cases freq with
  | some f => exact h
  | none =>
  cases signal with
  | some sg => exact h
  | none =>
    simp only [iwUpdate]
    split_ifs <;> intro henc <;> first | rfl | exact h henc

lemma iwUpdate_marker (cur : WifiNet) (l : IwLine) (hm : iwSecLine l)
    (h : cur.encryption ≠ [] → cur.security = "Secured") :
    (iwUpdate cur l).security = "Secured" := by
  rcases l with ⟨bss, ssid, freq, signal, w, r, p⟩
  obtain ⟨h1, h2, h3, hflag⟩ := hm
  obtain rfl : ssid = none := h1
  obtain rfl : freq = none := h2
  obtain rfl : signal = none := h3
  simp only [iwUpdate]
  by_cases hwr : (w = true) ∨ (r = true)
  · rw [if_pos hwr]
    split_ifs <;> rfl
  · rw [if_neg hwr]
    have hp : p = true := by
      rcases hflag with hf | hf | hf
      · exact absurd (Or.inl hf) hwr
      · exact absurd (Or.inr hf) hwr
      · exact hf
    by_cases henc : cur.encryption = []
    · rw [if_pos ⟨hp, henc⟩]
    · rw [if_neg (by intro hc; exact henc hc.2)]
      exact h henc

lemma iw_foldl_sticky (ls : List IwLine) :
    ∀ cur : WifiNet, cur.security = "Secured" →
      (ls.foldl iwUpdate cur).security = "Secured" := by
  induction ls with
  | nil => intro cur h; exact h
  | cons l ls ih =>
    intro cur h
    exact ih (iwUpdate cur l) (iwUpdate_sticky cur l h)

lemma iw_foldl_inv (ls : List IwLine) :
    ∀ cur : WifiNet, (cur.encryption ≠ [] → cur.security = "Secured") →
      ((ls.foldl iwUpdate cur).encryption ≠ [] →
        (ls.foldl iwUpdate cur).security = "Secured") := by
  induction ls with
  | nil => intro cur h; exact h
  | cons l ls ih =>
    intro cur h
    exact ih (iwUpdate cur l) (iwUpdate_inv cur l h)

lemma iw_foldl_marker (ls : List IwLine) :
    ∀ cur : WifiNet, (cur.encryption ≠ [] → cur.security = "Secured") →
      (∃ l ∈ ls, iwSecLine l) →
      (ls.foldl iwUpdate cur).security = "Secured" := by
  induction ls with
  | nil =>
    intro cur _ hex
    obtain ⟨x, hx, _⟩ := hex
    exact absurd hx (List.not_mem_nil x)
  | cons l ls ih =>
    intro cur h hex
    by_cases hm : iwSecLine l
    · exact iw_foldl_sticky ls (iwUpdate cur l) (iwUpdate_marker cur l hm h)
    · obtain ⟨x, hx, hxm⟩ := hex
      rcases List.mem_cons.mp hx with rfl | hx2
      · exact absurd hxm hm
      · exact ih (iwUpdate cur l) (iwUpdate_inv cur l h) ⟨x, hx2, hxm⟩

lemma iwUpdate_wpa_count (cur : WifiNet) (l : IwLine)
    (h : cur.encryption.count "WPA" ≤ 1) :
    (iwUpdate cur l).encryption.count "WPA" ≤ 1 := by
  rcases l with ⟨bss, ssid, freq, signal, w, r, p⟩
  cases ssid with
  | some raw => exact h
  | none =>
  cases freq with
  | some f => exact h
  | none =>
  cases signal with
  | some sg => exact h
  | none =>
    simp only [iwUpdate]
    by_cases hwr : (w = true) ∨ (r = true)
    · rw [if_pos hwr]
      by_cases hadd : (w = true) ∧ "WPA" ∉ cur.encryption
      · rw [if_pos hadd]
        have h0 : cur.encryption.count "WPA" = 0 :=
          List.count_eq_zero.mpr hadd.2
        by_cases hr : r = true
        · rw [if_pos hr]
          split_ifs <;>
            simp [List.count_append, h0]
        · rw [if_neg hr]
          split_ifs <;>
            simp [List.count_append, h0]
      · rw [if_neg hadd]
        by_cases hr : r = true
        · rw [if_pos hr]
          split_ifs <;>
            simp [List.count_append, h]
        · rw [if_neg hr]
          split_ifs <;>
            simp [List.count_append, h]
    · rw [if_neg hwr]
      split_ifs <;>
        simp [List.count_append, h]

lemma iw_foldl_wpa_count (ls : List IwLine) :
    ∀ cur : WifiNet, cur.encryption.count "WPA" ≤ 1 →
      (ls.foldl iwUpdate cur).encryption.count "WPA" ≤ 1 := by
  induction ls with
  | nil => intro cur h; exact h
  | cons l ls ih =>
    intro cur h
    exact ih (iwUpdate cur l) (iwUpdate_wpa_count cur l h)

lemma iw_foldl_nonsec (ls : List IwLine) :
    ∀ cur : WifiNet, (∀ l ∈ ls, ¬ iwSecLine l) →
      ((ls.foldl iwUpdate cur).security = cur.security ∧
        (ls.foldl iwUpdate cur).encryption = cur.encryption) := by
  induction ls with
  | nil => intro cur _; exact ⟨rfl, rfl⟩
  | cons l ls ih =>
    intro cur h
    have hl : ¬ iwSecLine l := h l (List.mem_cons_self l ls)
    have hls : ∀ x ∈ ls, ¬ iwSecLine x :=
      fun x hx => h x (List.mem_cons_of_mem l hx)
    obtain ⟨e1, e2⟩ := ih (iwUpdate cur l) hls
    obtain ⟨f1, f2⟩ := iwUpdate_nonsec cur l hl
    exact ⟨e1.trans f1, e2.trans f2⟩

lemma iw_block_parse (addr : String) (ls : List IwLine)
    (h : ∀ l ∈ ls, l.bss = none) :
    scan_wifi_networks_iw_parse (bssLine addr :: ls) =
      [ls.foldl iwUpdate (newIwNet addr)] := by
  have step : ∀ (ms : List IwLine) (cur : WifiNet) (out : List WifiNet),
      (∀ l ∈ ms, l.bss = none) →
      ms.foldl iwStep (some cur, out) = (some (ms.foldl iwUpdate cur), out) := by
    intro ms
    induction ms with
    | nil => intro cur out _; rfl
    | cons m ms ih =>
      intro cur out hm
      have h1 : m.bss = none := hm m (List.mem_cons_self m ms)
      have h2 : ∀ l ∈ ms, l.bss = none :=
        fun l hl => hm l (List.mem_cons_of_mem m hl)
      rw [List.foldl_cons, List.foldl_cons]
      have hstep : iwStep (some cur, out) m = (some (iwUpdate cur m), out) := by
        rcases m with ⟨bss, ssid, freq, signal, w, r, p⟩
        obtain rfl : bss = none := h1
        rfl
      rw [hstep]
      exact ih (iwUpdate cur m) out h2
  rw [scan_wifi_networks_iw_parse, List.foldl_cons]
  have hb : iwStep (none, []) (bssLine addr) = (some (newIwNet addr), []) := rfl
  rw [hb, step ls (newIwNet addr) [] h]
  rfl

/-- C6 fails as stated in its no-duplicates clause: an iw record block
with two RSN: marker lines accumulates the WPA2 kind twice in the
encryption list. -/
theorem c6_counterexample :
    (scan_wifi_networks_iw_parse
        [bssLine "aa:bb:cc:dd:ee:ff", rsnLine, rsnLine]).map
      (fun n => n.encryption) = [["WPA2", "WPA2"]] ∧
    ¬ (["WPA2", "WPA2"] : List String).Nodup := by
  exact ⟨rfl, by decide⟩

/-- C6 amended: a BSS block of the iw parser with no effective
security marker line yields security Open with an empty encryption
list, and any effective WPA:/RSN:/Privacy marker line makes the
security Secured; the WPA kind is appended at most once, but each RSN:
marker line appends WPA2 unconditionally (so duplicates can occur, and
likewise every information-element line of the iwlist parser appends
its kind unconditionally), and a Privacy marker appends WEP only while
the encryption list is empty. -/
theorem c6_amended :
    (∀ (addr : String) (ls : List IwLine), (∀ l ∈ ls, l.bss = none) →
      scan_wifi_networks_iw_parse (bssLine addr :: ls) =
        [ls.foldl iwUpdate (newIwNet addr)]) ∧
    (∀ (addr : String) (ls : List IwLine), (∀ l ∈ ls, ¬ iwSecLine l) →
      (ls.foldl iwUpdate (newIwNet addr)).security = "Open" ∧
      (ls.foldl iwUpdate (newIwNet addr)).encryption = []) ∧
    (∀ (addr : String) (ls : List IwLine), (∃ l ∈ ls, iwSecLine l) →
      (ls.foldl iwUpdate (newIwNet addr)).security = "Secured") ∧
    (∀ (addr : String) (ls : List IwLine),
      (ls.foldl iwUpdate (newIwNet addr)).encryption.count "WPA" ≤ 1) ∧
    (∀ (cur : WifiNet) (l : IwlistLine), l.essid = none → l.channelM = none →
      l.freqGhz = none → l.signalM = none → l.quality = none →
      l.encKey = none → l.hasWPA1 = false → l.hasWPA2 = true →
      (iwlistUpdate cur l).encryption = cur.encryption ++ ["WPA2"]) := by
  refine ⟨iw_block_parse, ?_, ?_, ?_, ?_⟩
  · intro addr ls h
    exact iw_foldl_nonsec ls (newIwNet addr) h
  · intro addr ls hex
    exact iw_foldl_marker ls (newIwNet addr) (by intro hc; exact absurd rfl hc) hex
  · intro addr ls
    exact iw_foldl_wpa_count ls (newIwNet addr) (by simp [newIwNet])
  · rintro cur ⟨cell, essid, ch, fg, sm, qu, ek, w1, w2, we⟩ h1 h2 h3 h4 h5 h6 h7
    obtain rfl : essid = none := h1
    obtain rfl : ch = none := h2
    obtain rfl : fg = none := h3
    obtain rfl : sm = none := h4
    obtain rfl : qu = none := h5
    obtain rfl : ek = none := h6
    obtain rfl : w1 = false := h7
    intro h8
    obtain rfl : w2 = true := h8
    rfl

/-- Witness for the amended C6 at a concrete one-line block carrying
an RSN marker: the record is Secured. -/
theorem c6_witness :
    (([rsnLine] : List IwLine).foldl iwUpdate
      (newIwNet "aa:bb:cc:dd:ee:ff")).security = "Secured" :=
  c6_amended.2.2.1 "aa:bb:cc:dd:ee:ff" [rsnLine]
    ⟨rsnLine, by simp, by constructor <;> simp [rsnLine]⟩

/-- Network address of a CIDR block: the ipaddress.ip_network call
with strict=False masks the host bits (src/scanners/network_scanner.py
line 338); addresses are modelled numerically. -/
def netAddrOf (addr prefixLen : ℕ) : ℕ :=
  addr / 2 ^ (32 - prefixLen) * 2 ^ (32 - prefixLen)

/-- The usable host addresses the hosts() iterator of ipaddress
enumerates for a network: all addresses between the network and
broadcast addresses, both endpoints for a /31, and the single address
for a /32. -/
def hostsOf (netAddr prefixLen : ℕ) : List ℕ :=
  if prefixLen ≤ 30 then
    (List.range (2 ^ (32 - prefixLen) - 2)).map (fun i => netAddr + 1 + i)
  else if prefixLen = 31 then [netAddr, netAddr + 1]
  else [netAddr]

/-- Target enumeration of discover_hosts (lines 337-349): a network of
more than 256 addresses is replaced by the /24 network at its network
address before the hosts are listed. -/
def discoverTargets (addr prefixLen : ℕ) : List ℕ :=
  let netA := netAddrOf addr prefixLen
  if 2 ^ (32 - prefixLen) > 256 then hostsOf (netAddrOf netA 24) 24
  else hostsOf netA prefixLen

/-- C7: a requested CIDR network of more than 256 addresses is
truncated by discover_hosts to the /24 network at the original network
address before target enumeration, yielding exactly 254 usable host
targets, while a network of 256 addresses or fewer is enumerated
unchanged. -/
theorem c7_cap_enforcement (addr prefixLen : ℕ) :
    (2 ^ (32 - prefixLen) > 256 →
      discoverTargets addr prefixLen =
        hostsOf (netAddrOf addr prefixLen) 24 ∧
      (discoverTargets addr prefixLen).length = 254) ∧
    (2 ^ (32 - prefixLen) ≤ 256 →
      discoverTargets addr prefixLen =
        hostsOf (netAddrOf addr prefixLen) prefixLen) := by
  constructor
  · intro hgt
    have hk : 8 < 32 - prefixLen := by
      by_contra hc
      push_neg at hc
      have h2 : 2 ^ (32 - prefixLen) ≤ 2 ^ 8 :=
        Nat.pow_le_pow_right (by norm_num) hc
      omega
    have hdvd : 2 ^ 8 ∣ netAddrOf addr prefixLen := by
      rw [netAddrOf]
      exact Dvd.dvd.mul_left (pow_dvd_pow 2 (le_of_lt hk)) _
    have htrunc : netAddrOf (netAddrOf addr prefixLen) 24 =
        netAddrOf addr prefixLen := by
      show netAddrOf addr prefixLen / 2 ^ (32 - 24) * 2 ^ (32 - 24) =
        netAddrOf addr prefixLen
      norm_num
      exact Nat.div_mul_cancel hdvd
    have hd : discoverTargets addr prefixLen =
        hostsOf (netAddrOf addr prefixLen) 24 := by
      simp only [discoverTargets]
      rw [if_pos hgt, htrunc]
    refine ⟨hd, ?_⟩
    rw [hd, hostsOf, if_pos (by norm_num : (24 : ℕ) ≤ 30)]
    simp
  · intro hle
    simp only [discoverTargets]
    rw [if_neg (by omega)]

/-- Witness for C7 at the concrete /16 network 192.168.0.0/16, which
is narrowed to 192.168.0.0/24 with 254 targets. -/
theorem c7_witness :
    discoverTargets 3232235520 16 = hostsOf (netAddrOf 3232235520 16) 24 ∧
    (discoverTargets 3232235520 16).length = 254 :=
  (c7_cap_enforcement 3232235520 16).1 (by norm_num)

/-- Host record appended by discover_hosts for a live target (lines
353-365); the dotted-quad address string is modelled by its numeric
value, which is exactly the sort key ipaddress.ip_address gives. -/
structure HostRec where
  ip : ℕ
  alive : Bool
  latency_ms : Option ℚ
  hostname : Option String
deriving DecidableEq

/-- Final sort of discover_hosts (line 367): ascending by numeric
address; the Python stable sort is modelled by insertion sort. -/
def sortHosts (l : List HostRec) : List HostRec :=
  List.insertionSort (fun a b => a.ip ≤ b.ip) l

/-- Open-port record appended by scan_host_ports (lines 387-398). -/
structure PortRec where
  port : ℕ
  service : String
  protocol : String
deriving DecidableEq

/-- Final sort of scan_host_ports (line 400): ascending by port
number. -/
def sortPorts (l : List PortRec) : List PortRec :=
  List.insertionSort (fun a b => a.port ≤ b.port) l

lemma insertionSort_key_unique {α : Type} (key : α → ℕ)
    (l₁ l₂ : List α) (hperm : l₁.Perm l₂)
    (hnd : l₁.Pairwise (fun a b => key a ≠ key b)) :
    List.insertionSort (fun a b => key a ≤ key b) l₁ =
      List.insertionSort (fun a b => key a ≤ key b) l₂ := by
  haveI ht : IsTotal α (fun a b => key a ≤ key b) :=
    ⟨fun a b => le_total (key a) (key b)⟩
  haveI htr : IsTrans α (fun a b => key a ≤ key b) :=
    ⟨fun a b c hab hbc => le_trans hab hbc⟩
  have hs1 := List.sorted_insertionSort (fun a b => key a ≤ key b) l₁
  have hs2 := List.sorted_insertionSort (fun a b => key a ≤ key b) l₂
  have hp1 := List.perm_insertionSort (fun a b => key a ≤ key b) l₁
  have hp2 := List.perm_insertionSort (fun a b => key a ≤ key b) l₂
  have hsymm : ∀ {x y : α}, key x ≠ key y → key y ≠ key x :=
    fun h => Ne.symm h
  have hne1 : (List.insertionSort (fun a b => key a ≤ key b) l₁).Pairwise
      (fun a b => key a ≠ key b) := (hp1.pairwise_iff hsymm).mpr hnd
  have hnd2 : l₂.Pairwise (fun a b => key a ≠ key b) :=
    (hperm.pairwise_iff hsymm).mp hnd
  have hne2 : (List.insertionSort (fun a b => key a ≤ key b) l₂).Pairwise
      (fun a b => key a ≠ key b) := (hp2.pairwise_iff hsymm).mpr hnd2
  have hlt1 : (List.insertionSort (fun a b => key a ≤ key b) l₁).Pairwise
      (fun a b => key a < key b) :=
    (hs1.and hne1).imp (fun h => lt_of_le_of_ne h.1 h.2)
  have hlt2 : (List.insertionSort (fun a b => key a ≤ key b) l₂).Pairwise
      (fun a b => key a < key b) :=
    (hs2.and hne2).imp (fun h => lt_of_le_of_ne h.1 h.2)
  haveI : IsAntisymm α (fun a b => key a < key b) :=
    ⟨fun a b h1 h2 => absurd (lt_trans h1 h2) (lt_irrefl _)⟩
  exact List.eq_of_perm_of_sorted (hp1.trans (hperm.trans hp2.symm)) hlt1 hlt2

/-- Wireless record with a present signal below -100 dBm. -/
def wifiNetWeak : WifiNet :=
  ⟨"11:22:33:44:55:66", some "weak", none, none, some (-110), none, "Open", []⟩

/-- Wireless record with a missing signal. -/
def wifiNetMissing : WifiNet :=
  ⟨"77:88:99:AA:BB:CC", some "missing", none, none, none, none, "Open", []⟩

/-- C8 fails as stated in its wifi clause: a missing signal is mapped
to -100 dBm by the sort key, so a network with a present signal of
-110 dBm sorts after the missing-signal network, which therefore is
not last. -/
theorem c8_counterexample :
    wifiNetMissing.signal_dbm = none ∧
    wifiNetWeak.signal_dbm = some (-110) ∧
    sortWifiNetworks [wifiNetWeak, wifiNetMissing] =
      [wifiNetMissing, wifiNetWeak] := by
  refine ⟨rfl, rfl, ?_⟩
  rfl

/-- C8 amended: discover_hosts returns hosts sorted ascending by
numeric address and scan_host_ports returns ports sorted ascending by
port number, and for distinct keys the sorted output is the same for
every completion order (any permutation of the collected results); the
wifi scan emits a permutation of its networks sorted descending by the
key that maps a missing (or zero, by Python falsiness) signal to -100
dBm, so a missing signal sorts as worst only among signals above -100
dBm, not absolutely last. -/
theorem c8_amended :
    (∀ l : List HostRec, (sortHosts l).Sorted (fun a b => a.ip ≤ b.ip)) ∧
    (∀ l₁ l₂ : List HostRec, l₁.Perm l₂ →
      l₁.Pairwise (fun a b => a.ip ≠ b.ip) → sortHosts l₁ = sortHosts l₂) ∧
    (∀ l : List PortRec, (sortPorts l).Sorted (fun a b => a.port ≤ b.port)) ∧
    (∀ l₁ l₂ : List PortRec, l₁.Perm l₂ →
      l₁.Pairwise (fun a b => a.port ≠ b.port) → sortPorts l₁ = sortPorts l₂) ∧
    (∀ l : List WifiNet,
      (sortWifiNetworks l).Sorted (fun a b => wifiSortKey b ≤ wifiSortKey a) ∧
      (sortWifiNetworks l).Perm l) := by
  refine ⟨?_, ?_, ?_, ?_, ?_⟩
  · intro l
    haveI : IsTotal HostRec (fun a b => a.ip ≤ b.ip) :=
      ⟨fun a b => le_total a.ip b.ip⟩
    haveI : IsTrans HostRec (fun a b => a.ip ≤ b.ip) :=
      ⟨fun a b c hab hbc => le_trans hab hbc⟩
    exact List.sorted_insertionSort _ l
  · exact insertionSort_key_unique (fun h : HostRec => h.ip)
  · intro l
    haveI : IsTotal PortRec (fun a b => a.port ≤ b.port) :=
      ⟨fun a b => le_total a.port b.port⟩
    haveI : IsTrans PortRec (fun a b => a.port ≤ b.port) :=
      ⟨fun a b c hab hbc => le_trans hab hbc⟩
    exact List.sorted_insertionSort _ l
  · exact insertionSort_key_unique (fun p : PortRec => p.port)
  · intro l
    haveI : IsTotal WifiNet (fun a b => wifiSortKey b ≤ wifiSortKey a) :=
      ⟨fun a b => le_total (wifiSortKey b) (wifiSortKey a)⟩
    haveI : IsTrans WifiNet (fun a b => wifiSortKey b ≤ wifiSortKey a) :=
      ⟨fun a b c hab hbc => le_trans hbc hab⟩
    exact ⟨List.sorted_insertionSort _ l, List.perm_insertionSort _ l⟩

/-- Witness for the amended C8 completion-order independence on two
concrete hosts with distinct addresses. -/
theorem c8_witness :
    sortHosts [⟨167772161, true, none, none⟩, ⟨167772162, true, none, none⟩] =
      sortHosts [⟨167772162, true, none, none⟩, ⟨167772161, true, none, none⟩] :=
  c8_amended.2.1 _ _ (List.Perm.swap _ _ _)
    (by simp)
